import Mathlib

/-
Verification of the ext4 read-only decoder (ext4extract.py) against its
specification.  The backing image is modelled as a total byte function
`disk : Nat → Nat` (a read of n bytes at offset o returns the n bytes
`disk o % 256, …`; reads never come up short, which models reads that stay
inside the image).  Multi-byte fields are little-endian, as in the `<...`
struct formats of the source.  Python byte-string slicing (which clamps
out-of-range indices) is modelled by `slice` and `sliceAssign`.
Unbounded recursion (the extent walk, the directory scan) is modelled with
an explicit fuel parameter; running out of fuel yields the artificial
error `outOfFuel`, standing for non-termination of the Python original.
Names kept from the source where Lean allows; Python `str` values
(directory-entry names, xattr keys) are kept as their raw byte lists.
-/

namespace Ext4

/-- Byte list read from the backing image: `n` bytes starting at `off`. -/
def readBytesD (disk : Nat → Nat) (off n : Nat) : List Nat :=
  (List.range n).map (fun i => disk (off + i) % 256)

/-- Little-endian integer from `n` bytes of `d` starting at `off`
(missing bytes read as 0). -/
def readLE (d : List Nat) (off n : Nat) : Nat :=
  (List.range n).foldl (fun acc i => acc + d.getD (off + i) 0 * 256 ^ i) 0

/-- Python slice `d[a:b]` for byte lists (indices clamp to the length). -/
def slice (d : List Nat) (a b : Nat) : List Nat :=
  (d.drop a).take (b - a)

/-- Python slice assignment `d[start:start+len(b)] = b` on byte lists,
including the clamping behaviour when the range runs past the end. -/
def sliceAssign (d : List Nat) (start : Nat) (b : List Nat) : List Nat :=
  d.take start ++ b ++ d.drop (start + b.length)

/-- Python dict assignment `m[k] = v` preserving insertion order. -/
def dictInsert {α β : Type} [DecidableEq α] (m : List (α × β)) (k : α) (v : β) :
    List (α × β) :=
  if m.any (fun p => p.1 = k) then m.map (fun p => if p.1 = k then (k, v) else p)
  else m ++ [(k, v)]

/- Record structures, one per namedtuple of the source. -/

structure Ext4SuperBlock where
  s_inodes_count : Nat
  s_blocks_count_lo : Nat
  s_r_blocks_count_lo : Nat
  s_free_blocks_count_lo : Nat
  s_free_inodes_count : Nat
  s_first_data_block : Nat
  s_log_block_size : Nat
  s_log_cluster_size : Nat
  s_blocks_per_group : Nat
  s_clusters_per_group : Nat
  s_inodes_per_group : Nat
  s_mtime : Nat
  s_wtime : Nat
  s_mnt_count : Nat
  s_max_mnt_count : Nat
  s_magic : Nat
  s_state : Nat
  s_errors : Nat
  s_minor_rev_level : Nat
  s_lastcheck : Nat
  s_checkinterval : Nat
  s_creator_os : Nat
  s_rev_level : Nat
  s_def_resuid : Nat
  s_def_resgid : Nat
  s_first_ino : Nat
  s_inode_size : Nat
  s_block_group_nr : Nat
  s_feature_compat : Nat
  s_feature_incompat : Nat
  s_feature_ro_compat : Nat
  s_uuid : List Nat
  s_volume_name : List Nat
  s_last_mounted : List Nat
  s_algorithm_usage_bitmap : Nat
  s_prealloc_blocks : Nat
  s_prealloc_dir_blocks : Nat
  s_reserved_gdt_blocks : Nat
  s_journal_uuid : List Nat
  s_journal_inum : Nat
  s_journal_dev : Nat
  s_last_orphan : Nat
  s_hash_seed : List Nat
  s_def_hash_version : Nat
  s_jnl_backup_type : Nat
  s_desc_size : Nat
  deriving Repr, DecidableEq

structure Ext4GroupDescriptor where
  bg_block_bitmap_lo : Nat
  bg_inode_bitmap_lo : Nat
  bg_inode_table_lo : Nat
  bg_free_blocks_count_lo : Nat
  bg_free_inodes_count_lo : Nat
  bg_used_dirs_count_lo : Nat
  bg_flags : Nat
  bg_exclude_bitmap_lo : Nat
  bg_block_bitmap_csum_lo : Nat
  bg_inode_bitmap_csum_lo : Nat
  bg_itable_unused_lo : Nat
  bg_checksum : Nat
  deriving Repr, DecidableEq

structure Ext4Inode where
  i_mode : Nat
  i_uid : Nat
  i_size_lo : Nat
  i_atime : Nat
  i_ctime : Nat
  i_mtime : Nat
  i_dtime : Nat
  i_gid : Nat
  i_links_count : Nat
  i_blocks_lo : Nat
  i_flags : Nat
  i_osd1 : List Nat
  i_block : List Nat
  i_generation : Nat
  i_file_acl_lo : Nat
  i_size_high : Nat
  i_obso_faddr : Nat
  i_osd2 : List Nat
  deriving Repr, DecidableEq

structure Ext4ExtentHeader where
  eh_magic : Nat
  eh_entries : Nat
  eh_max : Nat
  eh_depth : Nat
  eh_generation : Nat
  deriving Repr, DecidableEq

structure Ext4ExtentIndex where
  ei_block : Nat
  ei_leaf_lo : Nat
  ei_leaf_hi : Nat
  ei_unused : Nat
  deriving Repr, DecidableEq

structure Ext4ExtentEntry where
  ee_block : Nat
  ee_len : Nat
  ee_start_hi : Nat
  ee_start_lo : Nat
  deriving Repr, DecidableEq

structure Ext4DirEntryRec where
  inode : Nat
  rec_len : Nat
  name_len : Nat
  deriving Repr, DecidableEq

structure Ext4DirEntryV2 where
  inode : Nat
  rec_len : Nat
  name_len : Nat
  file_type : Nat
  deriving Repr, DecidableEq

structure Ext4XattrHeader where
  h_magic : Nat
  h_refcount : Nat
  h_blocks : Nat
  h_hash : Nat
  h_checksum : Nat
  h_reserved : List Nat
  deriving Repr, DecidableEq

structure Ext4XattrEntry where
  e_name_len : Nat
  e_name_index : Nat
  e_value_offs : Nat
  e_value_inum : Nat
  e_value_size : Nat
  e_hash : Nat
  deriving Repr, DecidableEq

/-- The mutable `DirEntry` class of the source (inode / name / type);
the name is kept as raw bytes (the source utf-8 decodes it). -/
structure DirEntry where
  inode : Nat
  name : List Nat
  entry_type : Nat
  deriving Repr, DecidableEq

/- Parsers, one per `make_*` of the source; field offsets follow the
struct pack strings (`<` = little-endian, no padding). -/

/-- `"<IIIIIIIIIIIIIHHHHHHIIIIHHIHHIII16s16s64sIBBH16sIII16sBBH"`. -/
def make_superblock (data : List Nat) : Ext4SuperBlock :=
  { s_inodes_count := readLE data 0 4
    s_blocks_count_lo := readLE data 4 4
    s_r_blocks_count_lo := readLE data 8 4
    s_free_blocks_count_lo := readLE data 12 4
    s_free_inodes_count := readLE data 16 4
    s_first_data_block := readLE data 20 4
    s_log_block_size := readLE data 24 4
    s_log_cluster_size := readLE data 28 4
    s_blocks_per_group := readLE data 32 4
    s_clusters_per_group := readLE data 36 4
    s_inodes_per_group := readLE data 40 4
    s_mtime := readLE data 44 4
    s_wtime := readLE data 48 4
    s_mnt_count := readLE data 52 2
    s_max_mnt_count := readLE data 54 2
    s_magic := readLE data 56 2
    s_state := readLE data 58 2
    s_errors := readLE data 60 2
    s_minor_rev_level := readLE data 62 2
    s_lastcheck := readLE data 64 4
    s_checkinterval := readLE data 68 4
    s_creator_os := readLE data 72 4
    s_rev_level := readLE data 76 4
    s_def_resuid := readLE data 80 2
    s_def_resgid := readLE data 82 2
    s_first_ino := readLE data 84 4
    s_inode_size := readLE data 88 2
    s_block_group_nr := readLE data 90 2
    s_feature_compat := readLE data 92 4
    s_feature_incompat := readLE data 96 4
    s_feature_ro_compat := readLE data 100 4
    s_uuid := slice data 104 120
    s_volume_name := slice data 120 136
    s_last_mounted := slice data 136 200
    s_algorithm_usage_bitmap := readLE data 200 4
    s_prealloc_blocks := readLE data 204 1
    s_prealloc_dir_blocks := readLE data 205 1
    s_reserved_gdt_blocks := readLE data 206 2
    s_journal_uuid := slice data 208 224
    s_journal_inum := readLE data 224 4
    s_journal_dev := readLE data 228 4
    s_last_orphan := readLE data 232 4
    s_hash_seed := slice data 236 252
    s_def_hash_version := readLE data 252 1
    s_jnl_backup_type := readLE data 253 1
    s_desc_size := readLE data 254 2 }

/-- `"<IIIHHHHIHHHH"`. -/
def make_group_descriptor (data : List Nat) : Ext4GroupDescriptor :=
  { bg_block_bitmap_lo := readLE data 0 4
    bg_inode_bitmap_lo := readLE data 4 4
    bg_inode_table_lo := readLE data 8 4
    bg_free_blocks_count_lo := readLE data 12 2
    bg_free_inodes_count_lo := readLE data 14 2
    bg_used_dirs_count_lo := readLE data 16 2
    bg_flags := readLE data 18 2
    bg_exclude_bitmap_lo := readLE data 20 4
    bg_block_bitmap_csum_lo := readLE data 24 2
    bg_inode_bitmap_csum_lo := readLE data 26 2
    bg_itable_unused_lo := readLE data 28 2
    bg_checksum := readLE data 30 2 }

/-- `"<HHIIIIIHHII4s60sIIII12s"`. -/
def make_inode (data : List Nat) : Ext4Inode :=
  { i_mode := readLE data 0 2
    i_uid := readLE data 2 2
    i_size_lo := readLE data 4 4
    i_atime := readLE data 8 4
    i_ctime := readLE data 12 4
    i_mtime := readLE data 16 4
    i_dtime := readLE data 20 4
    i_gid := readLE data 24 2
    i_links_count := readLE data 26 2
    i_blocks_lo := readLE data 28 4
    i_flags := readLE data 32 4
    i_osd1 := slice data 36 40
    i_block := slice data 40 100
    i_generation := readLE data 100 4
    i_file_acl_lo := readLE data 104 4
    i_size_high := readLE data 108 4
    i_obso_faddr := readLE data 112 4
    i_osd2 := slice data 116 128 }

/-- `"<HHHHI"`. -/
def make_extent_header (data : List Nat) : Ext4ExtentHeader :=
  { eh_magic := readLE data 0 2
    eh_entries := readLE data 2 2
    eh_max := readLE data 4 2
    eh_depth := readLE data 6 2
    eh_generation := readLE data 8 4 }

/-- `"<IIHH"`. -/
def make_extent_index (data : List Nat) : Ext4ExtentIndex :=
  { ei_block := readLE data 0 4
    ei_leaf_lo := readLE data 4 4
    ei_leaf_hi := readLE data 8 2
    ei_unused := readLE data 10 2 }

/-- `"<IHHI"`. -/
def make_extent_entry (data : List Nat) : Ext4ExtentEntry :=
  { ee_block := readLE data 0 4
    ee_len := readLE data 4 2
    ee_start_hi := readLE data 6 2
    ee_start_lo := readLE data 8 4 }

/-- `"<IHH"`. -/
def make_dir_entry (data : List Nat) : Ext4DirEntryRec :=
  { inode := readLE data 0 4
    rec_len := readLE data 4 2
    name_len := readLE data 6 2 }

/-- `"<IHBB"`. -/
def make_dir_entry_v2 (data : List Nat) : Ext4DirEntryV2 :=
  { inode := readLE data 0 4
    rec_len := readLE data 4 2
    name_len := readLE data 6 1
    file_type := readLE data 7 1 }

/-- `"<IIIII12s"`. -/
def make_xattr_header (data : List Nat) : Ext4XattrHeader :=
  { h_magic := readLE data 0 4
    h_refcount := readLE data 4 4
    h_blocks := readLE data 8 4
    h_hash := readLE data 12 4
    h_checksum := readLE data 16 4
    h_reserved := slice data 20 32 }

/-- `"<BBHIII"`. -/
def make_xattr_entry (data : List Nat) : Ext4XattrEntry :=
  { e_name_len := readLE data 0 1
    e_name_index := readLE data 1 1
    e_value_offs := readLE data 2 2
    e_value_inum := readLE data 4 4
    e_value_size := readLE data 8 4
    e_hash := readLE data 12 4 }

/-- The `RuntimeError` kinds raised by the source, plus `outOfFuel`
standing for non-termination of the unbounded Python recursion/loops. -/
inductive Ext4Error where
  | badSuperblockMagic
  | unsupportedFeature (bit : Nat)
  | badExtentMagic
  | badXattrMagic
  | unsupportedLayout
  | outOfFuel
  deriving Repr, DecidableEq

/-- A loaded volume: the backing image, the parsed superblock and the
computed block size (the `_ext4` / `_superblock` / `_block_size` state). -/
structure Ext4Vol where
  disk : Nat → Nat
  superblock : Ext4SuperBlock
  block_size : Nat

/-- The fixed unsupported-feature set checked by `load`. -/
def incompat_features : List Nat := [0x1, 0x4, 0x10, 0x80, 0x1000, 0x4000, 0x10000]

/-- The feature-bit loop of `load`: raises on the first listed bit set. -/
def checkIncompat (incompat : Nat) : List Nat → Except Ext4Error Unit
  | [] => Except.ok ()
  | f :: rest =>
    if incompat &&& f ≠ 0 then Except.error (Ext4Error.unsupportedFeature f)
    else checkIncompat incompat rest

/-- `Ext4.load`: superblock at offset 1024 (256 bytes), magic check,
feature check, block-size computation. -/
def load (disk : Nat → Nat) : Except Ext4Error Ext4Vol :=
  let sb := make_superblock (readBytesD disk 1024 256)
  if sb.s_magic ≠ 0xef53 then Except.error Ext4Error.badSuperblockMagic
  else
    match checkIncompat sb.s_feature_incompat incompat_features with
    | Except.error e => Except.error e
    | Except.ok _ => Except.ok ⟨disk, sb, 2 ^ (10 + sb.s_log_block_size)⟩

/-- `Ext4._read_group_descriptor`: 32 bytes at
`(s_first_data_block + 1) * block_size + bg_num * s_desc_size`. -/
def read_group_descriptor (v : Ext4Vol) (bg_num : Nat) : Ext4GroupDescriptor :=
  let gd_offset := (v.superblock.s_first_data_block + 1) * v.block_size
    + bg_num * v.superblock.s_desc_size
  make_group_descriptor (readBytesD v.disk gd_offset 32)

/-- `Ext4._read_inode`: 128 bytes at
`bg_inode_table_lo * block_size + ((n-1) % inodes_per_group) * s_inode_size`.
Modelled for inode numbers ≥ 1 (Python's negative floor-division for
inode 0 is out of scope; Nat subtraction makes `0 - 1 = 0` here). -/
def read_inode (v : Ext4Vol) (inode_num : Nat) : Ext4Inode :=
  let inode_bg_num := (inode_num - 1) / v.superblock.s_inodes_per_group
  let bg_inode_idx := (inode_num - 1) % v.superblock.s_inodes_per_group
  let group_desc := read_group_descriptor v inode_bg_num
  let inode_offset := group_desc.bg_inode_table_lo * v.block_size
    + bg_inode_idx * v.superblock.s_inode_size
  make_inode (readBytesD v.disk inode_offset 128)

/-- The `for eex in range(0, hdr.eh_entries)` loop of `_read_extent`:
`remaining` records left to process, next record index `eex`, each record
12 bytes at offset `12 + eex * 12`.  `recur` is the recursive re-entry of
the walker on a child node's block (used when `depth > 0`). -/
def read_extent_entries (recur : List Nat → List Nat → Except Ext4Error (List Nat))
    (v : Ext4Vol) (data extent_block : List Nat)
    (depth remaining eex : Nat) : Except Ext4Error (List Nat) :=
  match remaining with
  | 0 => Except.ok data
  | r + 1 =>
    let raw_offset := 12 + eex * 12
    let entry_raw := slice extent_block raw_offset (raw_offset + 12)
    if depth = 0 then
      let entry := make_extent_entry entry_raw
      let start := entry.ee_block * v.block_size
      let size := entry.ee_len * v.block_size
      read_extent_entries recur v
        (sliceAssign data start (readBytesD v.disk (entry.ee_start_lo * v.block_size) size))
        extent_block depth r (eex + 1)
    else
      let index := make_extent_index entry_raw
      let lower_block := readBytesD v.disk (index.ei_leaf_lo * v.block_size) v.block_size
      match recur data lower_block with
      | Except.ok data' => read_extent_entries recur v data' extent_block depth r (eex + 1)
      | Except.error e => Except.error e

/-- `Ext4._read_extent`: parse the 12-byte header of `extent_block`,
check the magic, then iterate the `eh_entries` records; at depth > 0 the
walk re-enters itself on each child block (with one unit of fuel less). -/
def read_extent (fuel : Nat) (v : Ext4Vol) (data extent_block : List Nat) :
    Except Ext4Error (List Nat) :=
  match fuel with
  | 0 => Except.error Ext4Error.outOfFuel
  | fuel' + 1 =>
    let hdr := make_extent_header (slice extent_block 0 12)
    if hdr.eh_magic = 0xf30a then
      read_extent_entries (fun d b => read_extent fuel' v d b) v data extent_block
        hdr.eh_depth hdr.eh_entries 0
    else Except.error Ext4Error.badExtentMagic

/-- `Ext4._read_data`: empty / inline / extent-tree / unsupported, checked
in this order. -/
def read_data (fuel : Nat) (v : Ext4Vol) (inode : Ext4Inode) :
    Except Ext4Error (List Nat) :=
  if inode.i_size_lo = 0 then Except.ok []
  else if inode.i_flags &&& 0x10000000 ≠ 0
      ∨ (inode.i_mode &&& 0xf000 = 0xa000 ∧ inode.i_size_lo ≤ 60) then
    Except.ok inode.i_block
  else if inode.i_flags &&& 0x80000 ≠ 0 then
    read_extent fuel v (List.replicate inode.i_size_lo 0) inode.i_block
  else Except.error Ext4Error.unsupportedLayout

/-- `Ext4.read_file`: materialized data truncated to `i_size_lo`, plus
access and modification times. -/
def read_file (fuel : Nat) (v : Ext4Vol) (inode_num : Nat) :
    Except Ext4Error (List Nat × Nat × Nat) :=
  let inode := read_inode v inode_num
  Except.map (fun d => (d.take inode.i_size_lo, inode.i_atime, inode.i_mtime))
    (read_data fuel v inode)

/-- The `while offset < len(dir_raw)` loop of `Ext4.read_dir`: one record
decoded per iteration, cursor advanced by the record's `rec_len`;
running out of fuel models the loop never reaching the end. -/
def read_dir_loop (fuel : Nat) (v : Ext4Vol) (dir_raw : List Nat) (offset : Nat) :
    Except Ext4Error (List DirEntry) :=
  match fuel with
  | 0 => if offset < dir_raw.length then Except.error Ext4Error.outOfFuel else Except.ok []
  | fuel' + 1 =>
    if offset < dir_raw.length then
      let entry_raw := slice dir_raw offset (offset + 8)
      if v.superblock.s_feature_incompat &&& 0x2 ≠ 0 then
        let dir_entry := make_dir_entry_v2 entry_raw
        let entry : DirEntry :=
          ⟨dir_entry.inode, slice dir_raw (offset + 8) (offset + 8 + dir_entry.name_len),
            dir_entry.file_type⟩
        match read_dir_loop fuel' v dir_raw (offset + dir_entry.rec_len) with
        | Except.ok rest => Except.ok (entry :: rest)
        | Except.error e => Except.error e
      else
        let dir_entry := make_dir_entry entry_raw
        let entry_inode := read_inode v dir_entry.inode
        let inode_type := entry_inode.i_mode &&& 0xf000
        let etype : Nat :=
          if inode_type = 0x1000 then 5
          else if inode_type = 0x2000 then 3
          else if inode_type = 0x4000 then 2
          else if inode_type = 0x6000 then 4
          else if inode_type = 0x8000 then 1
          else if inode_type = 0xA000 then 7
          else if inode_type = 0xC000 then 6
          else 0
        let entry : DirEntry :=
          ⟨dir_entry.inode, slice dir_raw (offset + 8) (offset + 8 + dir_entry.name_len),
            etype⟩
        match read_dir_loop fuel' v dir_raw (offset + dir_entry.rec_len) with
        | Except.ok rest => Except.ok (entry :: rest)
        | Except.error e => Except.error e
    else Except.ok []

/-- `Ext4.read_dir`: materialize the directory inode's data, then scan it
from offset 0. -/
def read_dir (fuel : Nat) (v : Ext4Vol) (inode_num : Nat) :
    Except Ext4Error (List DirEntry) :=
  match read_data fuel v (read_inode v inode_num) with
  | Except.ok dir_raw => read_dir_loop fuel v dir_raw 0
  | Except.error e => Except.error e

/-- The fixed namespace-prefix table of `read_xattr`, as raw bytes:
`""`, `"user."`, `"system.posix_acl_access"`, `"system.posix_acl_default"`,
`"trusted."`, `"security."`, `"system."`, `"system.richacl"`. -/
def xattr_prefixes : List (List Nat) :=
  [ [],
    [117, 115, 101, 114, 46],
    [115, 121, 115, 116, 101, 109, 46, 112, 111, 115, 105, 120, 95, 97, 99, 108,
      95, 97, 99, 99, 101, 115, 115],
    [115, 121, 115, 116, 101, 109, 46, 112, 111, 115, 105, 120, 95, 97, 99, 108,
      95, 100, 101, 102, 97, 117, 108, 116],
    [116, 114, 117, 115, 116, 101, 100, 46],
    [115, 101, 99, 117, 114, 105, 116, 121, 46],
    [115, 121, 115, 116, 101, 109, 46],
    [115, 121, 115, 116, 101, 109, 46, 114, 105, 99, 104, 97, 99, 108] ]

/-- The `while offset < len(xattr_data)` loop of `read_xattr`: 16-byte
entry header, four-field all-zero sentinel check, name bytes, value slice;
an empty value slice is recorded as `none`.  The cursor always advances by
at least 16, so the loop needs no fuel. -/
def read_xattr_loop (xattr_data : List Nat) (offset : Nat)
    (xattr : List (List Nat × Option (List Nat))) :
    List (List Nat × Option (List Nat)) :=
  if h : offset < xattr_data.length then
    let entry := make_xattr_entry (slice xattr_data offset (offset + 16))
    if entry.e_name_len = 0 ∧ entry.e_name_index = 0 ∧ entry.e_value_offs = 0
        ∧ entry.e_value_inum = 0 then xattr
    else
      let name := slice xattr_data (offset + 16) (offset + 16 + entry.e_name_len)
      let key := xattr_prefixes.getD entry.e_name_index [] ++ name
      let value := slice xattr_data entry.e_value_offs
        (entry.e_value_offs + entry.e_value_size)
      let value' : Option (List Nat) := if value = [] then none else some value
      read_xattr_loop xattr_data (offset + 16 + entry.e_name_len)
        (dictInsert xattr key value')
  else xattr
termination_by xattr_data.length - offset
decreasing_by omega

/-- `Ext4.read_xattr`: empty mapping for a zero ACL pointer; otherwise a
32-byte header at `i_file_acl_lo * block_size`, magic check, then the
entry scan over the remaining `block_size * h_blocks - 32` bytes. -/
def read_xattr (v : Ext4Vol) (inode : Ext4Inode) :
    Except Ext4Error (List (List Nat × Option (List Nat))) :=
  if inode.i_file_acl_lo = 0 then Except.ok []
  else
    let xattr_hdr := make_xattr_header
      (readBytesD v.disk (inode.i_file_acl_lo * v.block_size) 32)
    if xattr_hdr.h_magic ≠ 0xea020000 then Except.error Ext4Error.badXattrMagic
    else
      let xattr_data := readBytesD v.disk (inode.i_file_acl_lo * v.block_size + 32)
        (v.block_size * xattr_hdr.h_blocks - 32)
      Except.ok (read_xattr_loop xattr_data 0 [])

/- Concrete volumes used by the closed witness/counterexample theorems.
`wDisk`: a tiny 1024-byte-block volume (magic 0xEF53, no incompat
features, so v1 directories), descriptor table at block 2, inode table at
block 3, inode 2 a directory with inline data holding one record
(inode 3, rec_len 60, name "x"), inode 3 with mode high nibble 0x3. -/
def wDisk (i : Nat) : Nat :=
  if i = 1080 then 0x53 else if i = 1081 then 0xef
  else if i = 1044 then 1
  else if i = 1064 then 16
  else if i = 1112 then 128
  else if i = 1278 then 32
  else if i = 2056 then 3
  else if i = 3201 then 0x40
  else if i = 3204 then 60
  else if i = 3235 then 0x10
  else if i = 3240 then 3
  else if i = 3244 then 60
  else if i = 3246 then 1
  else if i = 3248 then 120
  else if i = 3329 then 0x30
  else 0

def wSb : Ext4SuperBlock := make_superblock (readBytesD wDisk 1024 256)

def wVol : Ext4Vol := ⟨wDisk, wSb, 2 ^ (10 + wSb.s_log_block_size)⟩

/-- `wDisk` with inode 2's `i_size_lo` raised to 61 while its inline flag
stays set: the C1 counterexample volume. -/
def c1Disk (i : Nat) : Nat := if i = 3204 then 61 else wDisk i

def c1Sb : Ext4SuperBlock := make_superblock (readBytesD c1Disk 1024 256)

def c1Vol : Ext4Vol := ⟨c1Disk, c1Sb, 2 ^ (10 + c1Sb.s_log_block_size)⟩

/- Basic lemmas about the byte-level helpers. -/

theorem readBytesD_length (disk : Nat → Nat) (off n : Nat) :
    (readBytesD disk off n).length = n := by
  simp [readBytesD]

theorem readBytesD_congr {d1 d2 : Nat → Nat} (off n : Nat)
    (h : ∀ i, off ≤ i → i < off + n → d2 i = d1 i) :
    readBytesD d2 off n = readBytesD d1 off n := by
  unfold readBytesD
  refine List.map_congr_left ?_
  intro i hi
  rw [List.mem_range] at hi
  rw [h (off + i) (by omega) (by omega)]

theorem slice_length (d : List Nat) (a b : Nat) :
    (slice d a b).length = min (b - a) (d.length - a) := by
  simp [slice]

theorem sliceAssign_length_ge (d : List Nat) (start : Nat) (b : List Nat) :
    d.length ≤ (sliceAssign d start b).length := by
  simp only [sliceAssign, List.length_append, List.length_take, List.length_drop]
  omega

theorem read_inode_i_block_length (v : Ext4Vol) (n : Nat) :
    (read_inode v n).i_block.length = 60 := by
  simp [read_inode, make_inode, slice_length, readBytesD_length]

/- The feature-check loop of `load`. -/

theorem checkIncompat_ok {inc : Nat} {l : List Nat} :
    checkIncompat inc l = Except.ok () ↔ ∀ f ∈ l, inc &&& f = 0 := by
  induction l with
  | nil => simp [checkIncompat]
  | cons f rest ih => by_cases h : inc &&& f = 0 <;> simp [checkIncompat, h, ih]

theorem checkIncompat_error_shape {inc : Nat} {l : List Nat} {e : Ext4Error}
    (h : checkIncompat inc l = Except.error e) :
    ∃ f ∈ l, e = Ext4Error.unsupportedFeature f ∧ inc &&& f ≠ 0 := by
  induction l with
  | nil => simp [checkIncompat] at h
  | cons f rest ih =>
    unfold checkIncompat at h
    split at h
    · rename_i hf
      cases h
      exact ⟨f, by simp, rfl, hf⟩
    · rename_i hf
      obtain ⟨g, hg, he, hne⟩ := ih h
      exact ⟨g, by simp [hg], he, hne⟩

theorem checkIncompat_error_exists {inc : Nat} {l : List Nat}
    (h : ∃ f ∈ l, inc &&& f ≠ 0) :
    ∃ f, checkIncompat inc l = Except.error (Ext4Error.unsupportedFeature f) := by
  induction l with
  | nil => simp at h
  | cons f rest ih =>
    by_cases hf : inc &&& f = 0
    · obtain ⟨g, hg, hne⟩ := h
      rcases List.mem_cons.mp hg with rfl | hg'
      · exact absurd hf hne
      · obtain ⟨g', hg'⟩ := ih ⟨g, hg', hne⟩
        exact ⟨g', by simpa [checkIncompat, hf] using hg'⟩
    · exact ⟨f, by simp [checkIncompat, hf]⟩

/-- C4: `load` fails with `BadSuperblockMagic` iff the superblock's
`s_magic` differs from 0xEF53 (checked before any feature check); with a
correct magic it fails with `UnsupportedFeature` iff `s_feature_incompat`
has a bit of the fixed set {0x1, 0x4, 0x10, 0x80, 0x1000, 0x4000, 0x10000}
set, and succeeds otherwise; and `load` only ever reads the 256 superblock
bytes at offset 1024 (volumes agreeing there load identically). -/
theorem load_spec (disk : Nat → Nat) :
    ((make_superblock (readBytesD disk 1024 256)).s_magic ≠ 0xef53 ↔
      load disk = Except.error Ext4Error.badSuperblockMagic) ∧
    ((make_superblock (readBytesD disk 1024 256)).s_magic = 0xef53 →
      ((∃ f ∈ incompat_features,
          (make_superblock (readBytesD disk 1024 256)).s_feature_incompat &&& f ≠ 0) ↔
        ∃ f, load disk = Except.error (Ext4Error.unsupportedFeature f))) ∧
    ((make_superblock (readBytesD disk 1024 256)).s_magic = 0xef53 →
      (∀ f ∈ incompat_features,
        (make_superblock (readBytesD disk 1024 256)).s_feature_incompat &&& f = 0) →
      load disk = Except.ok ⟨disk, make_superblock (readBytesD disk 1024 256),
        2 ^ (10 + (make_superblock (readBytesD disk 1024 256)).s_log_block_size)⟩) ∧
    (∀ disk2 : Nat → Nat, (∀ i, 1024 ≤ i → i < 1280 → disk2 i = disk i) →
      Except.map (fun v => (v.superblock, v.block_size)) (load disk2)
        = Except.map (fun v => (v.superblock, v.block_size)) (load disk)) := by
  refine ⟨⟨fun hm => by simp [load, hm], fun hl => ?_⟩, fun hm => ⟨fun hf => ?_, fun hf => ?_⟩,
    fun hm hall => ?_, fun disk2 hagree => ?_⟩
  · intro hm
    simp only [load, hm] at hl
    rw [if_neg (by simp)] at hl
    rcases hc : checkIncompat (make_superblock (readBytesD disk 1024 256)).s_feature_incompat
        incompat_features with e | u
    · rw [hc] at hl
      obtain ⟨f, _, he, _⟩ := checkIncompat_error_shape hc
      cases hl
      cases he
    · rw [hc] at hl; cases hl
  · obtain ⟨f, hf⟩ := checkIncompat_error_exists hf
    refine ⟨f, ?_⟩
    simp only [load]
    rw [if_neg (by simp [hm]), hf]
  · obtain ⟨f, hf⟩ := hf
    simp only [load] at hf
    rw [if_neg (by simp [hm])] at hf
    rcases hc : checkIncompat (make_superblock (readBytesD disk 1024 256)).s_feature_incompat
        incompat_features with e | u
    · obtain ⟨g, hg, he, hne⟩ := checkIncompat_error_shape hc
      exact ⟨g, hg, hne⟩
    · rw [hc] at hf; cases hf
  · simp only [load]
    rw [if_neg (by simp [hm]), checkIncompat_ok.mpr hall]
  · have e : readBytesD disk2 1024 256 = readBytesD disk 1024 256 :=
      readBytesD_congr 1024 256 (by intro i h1 h2; exact hagree i h1 (by omega))
    simp only [load, e]
    by_cases hm : (make_superblock (readBytesD disk 1024 256)).s_magic = 0xef53
    · rw [if_neg (by simp [hm]), if_neg (by simp [hm])]
      rcases hc : checkIncompat (make_superblock (readBytesD disk 1024 256)).s_feature_incompat
          incompat_features with e' | u
      · rfl
      · rfl
    · rw [if_pos (by simp [hm]), if_pos (by simp [hm])]

/-- C4 witness: the concrete volume `wDisk` has the right magic and no
unsupported feature bits, so it loads successfully. -/
theorem load_spec_witness :
    load wDisk = Except.ok ⟨wDisk, wSb, 2 ^ (10 + wSb.s_log_block_size)⟩ :=
  (load_spec wDisk).2.2.1 (by decide) (by decide)

/- Shape lemmas for the extent walker: it only ever fails with
`outOfFuel` or `badExtentMagic`, and it never shrinks the output buffer. -/

theorem read_extent_entries_error_shape
    {recur : List Nat → List Nat → Except Ext4Error (List Nat)}
    (hrec : ∀ data eb e, recur data eb = Except.error e →
      e = Ext4Error.outOfFuel ∨ e = Ext4Error.badExtentMagic) :
    ∀ remaining v data eb depth eex e,
      read_extent_entries recur v data eb depth remaining eex = Except.error e →
      e = Ext4Error.outOfFuel ∨ e = Ext4Error.badExtentMagic := by
  intro remaining
  induction remaining with
  | zero =>
    intro v data eb depth eex e h
    simp only [read_extent_entries] at h
    cases h
  | succ r ih =>
    intro v data eb depth eex e h
    simp only [read_extent_entries] at h
    split at h
    · exact ih _ _ _ _ _ _ h
    · split at h
      · exact ih _ _ _ _ _ _ h
      · next e' heq =>
        cases h
        exact hrec _ _ _ heq

theorem read_extent_error_shape :
    ∀ fuel v data eb e, read_extent fuel v data eb = Except.error e →
      e = Ext4Error.outOfFuel ∨ e = Ext4Error.badExtentMagic := by
  intro fuel
  induction fuel with
  | zero =>
    intro v data eb e h
    simp only [read_extent] at h
    cases h
    exact Or.inl rfl
  | succ f ih =>
    intro v data eb e h
    simp only [read_extent] at h
    split at h
    · exact read_extent_entries_error_shape (fun d b => ih v d b) _ _ _ _ _ _ _ h
    · cases h
      exact Or.inr rfl

theorem read_extent_entries_length
    {recur : List Nat → List Nat → Except Ext4Error (List Nat)}
    (hrec : ∀ data eb d2, recur data eb = Except.ok d2 → data.length ≤ d2.length) :
    ∀ remaining v data eb depth eex d2,
      read_extent_entries recur v data eb depth remaining eex = Except.ok d2 →
      data.length ≤ d2.length := by
  intro remaining
  induction remaining with
  | zero =>
    intro v data eb depth eex d2 h
    simp only [read_extent_entries] at h
    cases h
    exact le_rfl
  | succ r ih =>
    intro v data eb depth eex d2 h
    simp only [read_extent_entries] at h
    split at h
    · exact le_trans (sliceAssign_length_ge _ _ _) (ih _ _ _ _ _ _ h)
    · split at h
      · next data' heq => exact le_trans (hrec _ _ _ heq) (ih _ _ _ _ _ _ h)
      · cases h

theorem read_extent_length :
    ∀ fuel v data eb d2, read_extent fuel v data eb = Except.ok d2 →
      data.length ≤ d2.length := by
  intro fuel
  induction fuel with
  | zero =>
    intro v data eb d2 h
    simp only [read_extent] at h
    cases h
  | succ f ih =>
    intro v data eb d2 h
    simp only [read_extent] at h
    split at h
    · exact read_extent_entries_length (fun d b => ih v d b) _ _ _ _ _ _ _ h
    · cases h

/-- C5: on a loaded volume, resolving inode `n ≥ 1` reads the group
descriptor of group `g = (n-1) / s_inodes_per_group` at byte offset
`(s_first_data_block+1) * block_size + g * s_desc_size` (32 bytes), and
the inode record at `bg_inode_table_lo * block_size +
((n-1) % s_inodes_per_group) * s_inode_size` (128 bytes), where
`block_size = 2^(10 + s_log_block_size)`; only those byte ranges of the
image are consumed. -/
theorem inode_resolution_spec (disk : Nat → Nat) (v : Ext4Vol) (n : Nat)
    (hload : load disk = Except.ok v) (hn : 1 ≤ n)
    (hipg : 0 < v.superblock.s_inodes_per_group)
    (g gdOff ioOff : Nat) (gd : Ext4GroupDescriptor)
    (hg : g = (n - 1) / v.superblock.s_inodes_per_group)
    (hgdOff : gdOff = (v.superblock.s_first_data_block + 1) * v.block_size
      + g * v.superblock.s_desc_size)
    (hgd : gd = make_group_descriptor (readBytesD v.disk gdOff 32))
    (hioOff : ioOff = gd.bg_inode_table_lo * v.block_size
      + ((n - 1) % v.superblock.s_inodes_per_group) * v.superblock.s_inode_size) :
    v.block_size = 2 ^ (10 + v.superblock.s_log_block_size) ∧
    read_group_descriptor v g = gd ∧
    read_inode v n = make_inode (readBytesD v.disk ioOff 128) ∧
    (∀ d2 : Nat → Nat,
      (∀ i, gdOff ≤ i → i < gdOff + 32 → d2 i = v.disk i) →
      (∀ i, ioOff ≤ i → i < ioOff + 128 → d2 i = v.disk i) →
      read_inode ⟨d2, v.superblock, v.block_size⟩ n = read_inode v n) := by
  subst hg
  subst hgdOff
  subst hgd
  subst hioOff
  refine ⟨?_, rfl, rfl, ?_⟩
  · simp only [load] at hload
    split at hload
    · cases hload
    · split at hload
      · cases hload
      · cases hload
        rfl
  · intro d2 h1 h2
    have e1 := readBytesD_congr _ 32 h1
    have e2 := readBytesD_congr _ 128 h2
    simp only [read_inode, read_group_descriptor]
    rw [e1, e2]

/-- C5 witness: on the concrete volume `wVol`, inode 2 lives in group 0,
whose descriptor sits at byte 2048 and whose inode table puts the record
at byte 3200. -/
theorem inode_resolution_spec_witness :
    read_inode wVol 2 = make_inode (readBytesD wVol.disk 3200 128) :=
  (inode_resolution_spec wDisk wVol 2 rfl (by decide) (by decide)
    0 2048 3200 (make_group_descriptor (readBytesD wVol.disk 2048 32))
    (by decide) (by decide) rfl (by decide)).2.2.1

/-- C2: `_read_data` dispatches in priority order: size 0 gives an empty
buffer; the inline-data flag, or a symlink of size ≤ 60, gives the raw
60-byte `i_block` area with no tree walk (the result is independent of
the volume and of the fuel); the extents flag starts the extent walk on a
zeroed buffer of `i_size_lo` bytes; and the `UnsupportedLayout` error is
raised exactly when none of the three apply. -/
theorem read_data_spec (fuel : Nat) (v : Ext4Vol) (inode : Ext4Inode) :
    (inode.i_size_lo = 0 → read_data fuel v inode = Except.ok []) ∧
    (inode.i_size_lo ≠ 0 →
      (inode.i_flags &&& 0x10000000 ≠ 0
        ∨ (inode.i_mode &&& 0xf000 = 0xa000 ∧ inode.i_size_lo ≤ 60)) →
      ∀ fuel2 : Nat, ∀ v2 : Ext4Vol, read_data fuel2 v2 inode = Except.ok inode.i_block) ∧
    (inode.i_size_lo ≠ 0 →
      ¬(inode.i_flags &&& 0x10000000 ≠ 0
        ∨ (inode.i_mode &&& 0xf000 = 0xa000 ∧ inode.i_size_lo ≤ 60)) →
      inode.i_flags &&& 0x80000 ≠ 0 →
      read_data fuel v inode
        = read_extent fuel v (List.replicate inode.i_size_lo 0) inode.i_block) ∧
    (read_data fuel v inode = Except.error Ext4Error.unsupportedLayout ↔
      (inode.i_size_lo ≠ 0
        ∧ ¬(inode.i_flags &&& 0x10000000 ≠ 0
            ∨ (inode.i_mode &&& 0xf000 = 0xa000 ∧ inode.i_size_lo ≤ 60))
        ∧ inode.i_flags &&& 0x80000 = 0)) := by
  refine ⟨fun h0 => by simp [read_data, h0],
    fun h0 hb fuel2 v2 => by simp [read_data, h0, hb],
    fun h0 hb hc => by simp [read_data, h0, hb, hc], ?_, ?_⟩
  · intro h
    by_cases h0 : inode.i_size_lo = 0
    · simp [read_data, h0] at h
    by_cases hb : inode.i_flags &&& 0x10000000 ≠ 0
        ∨ (inode.i_mode &&& 0xf000 = 0xa000 ∧ inode.i_size_lo ≤ 60)
    · simp [read_data, h0, hb] at h
    by_cases hc : inode.i_flags &&& 0x80000 = 0
    · exact ⟨h0, hb, hc⟩
    · simp only [read_data, if_neg h0, if_neg hb, if_pos hc] at h
      rcases read_extent_error_shape fuel v _ _ _ h with h1 | h1 <;> simp at h1
  · rintro ⟨h0, hb, hc⟩
    simp [read_data, h0, hb, hc]

/-- C2 witness: a nonempty inode with neither the inline flag nor the
extents flag (legacy mapped layout) makes `_read_data` fail with
`UnsupportedLayout`. -/
theorem read_data_spec_witness :
    read_data 1 wVol
      ⟨0x8000, 0, 5, 0, 0, 0, 0, 0, 0, 0, 0, [], List.replicate 60 0, 0, 0, 0, 0, []⟩
      = Except.error Ext4Error.unsupportedLayout :=
  (read_data_spec 1 wVol _).2.2.2.2 (by decide)

/-- C1 (amended): `read_file` returns exactly `i_size_lo` bytes when the
inode is empty or extent-mapped, and `min i_size_lo 60` bytes when the
inline branch is taken — an inline-flagged inode with `i_size_lo > 60`
yields only the 60 bytes of `i_block`. -/
theorem read_file_length (fuel : Nat) (v : Ext4Vol) (n : Nat) (buf : List Nat) (ta tm : Nat)
    (h : read_file fuel v n = Except.ok (buf, ta, tm)) :
    buf.length =
      (if (read_inode v n).i_size_lo ≠ 0
          ∧ ((read_inode v n).i_flags &&& 0x10000000 ≠ 0
            ∨ ((read_inode v n).i_mode &&& 0xf000 = 0xa000 ∧ (read_inode v n).i_size_lo ≤ 60))
        then min (read_inode v n).i_size_lo 60
        else (read_inode v n).i_size_lo) := by
  simp only [read_file] at h
  rcases hd : read_data fuel v (read_inode v n) with e | d
  · rw [hd] at h
    simp [Except.map] at h
  · rw [hd] at h
    simp only [Except.map, Except.ok.injEq, Prod.mk.injEq] at h
    obtain ⟨hbuf, _, _⟩ := h
    subst hbuf
    rw [List.length_take]
    by_cases h0 : (read_inode v n).i_size_lo = 0
    · simp [h0]
    · by_cases hb : (read_inode v n).i_flags &&& 0x10000000 ≠ 0
          ∨ ((read_inode v n).i_mode &&& 0xf000 = 0xa000 ∧ (read_inode v n).i_size_lo ≤ 60)
      · unfold read_data at hd
        rw [if_neg h0, if_pos hb] at hd
        cases hd
        rw [if_pos ⟨h0, hb⟩, read_inode_i_block_length]
      · by_cases hc : (read_inode v n).i_flags &&& 0x80000 = 0
        · unfold read_data at hd
          rw [if_neg h0, if_neg hb, if_neg (not_not_intro hc)] at hd
          cases hd
        · unfold read_data at hd
          rw [if_neg h0, if_neg hb, if_pos hc] at hd
          have hlen := read_extent_length fuel v _ _ _ hd
          rw [List.length_replicate] at hlen
          rw [if_neg (by rintro ⟨_, hbb⟩; exact hb hbb)]
          omega

/-- C1 counterexample: `c1Vol` is a loaded volume whose inode 2 has the
inline-data flag set and `i_size_lo = 61`; `read_file` returns only 60
bytes there, not `i_size_lo` bytes. -/
theorem read_file_length_cex :
    load c1Disk = Except.ok c1Vol ∧
    (read_inode c1Vol 2).i_size_lo = 61 ∧
    Except.map (fun r => r.1.length) (read_file 1 c1Vol 2) = Except.ok 60 := by
  exact ⟨rfl, by decide, rfl⟩

/-- The 60-byte buffer `read_file` returns for inode 2 of `wVol`. -/
def wBuf : List Nat := (read_inode wVol 2).i_block.take 60

/-- C1 witness: on `wVol`, inode 2 is inline with `i_size_lo = 60`, and
`read_file` returns exactly `min 60 60 = 60` bytes. -/
theorem read_file_length_witness :
    read_file 1 wVol 2 = Except.ok (wBuf, 0, 0) ∧ wBuf.length = 60 := by
  refine ⟨rfl, ?_⟩
  have h := read_file_length 1 wVol 2 wBuf 0 0 rfl
  exact h.trans (by decide)

/- Index-level lemmas for `sliceAssign` and `readBytesD`, used to state
what the extent walk writes where. -/

theorem sliceAssign_length_eq (d : List Nat) (start : Nat) (b : List Nat)
    (h : start + b.length ≤ d.length) :
    (sliceAssign d start b).length = d.length := by
  simp only [sliceAssign, List.length_append, List.length_take, List.length_drop]
  omega

theorem getD_take (l : List Nat) (n m : Nat) (h : m < n) :
    (l.take n).getD m 0 = l.getD m 0 := by
  by_cases h2 : m < l.length
  · rw [List.getD_eq_getElem _ _ (by simp [List.length_take]; omega), List.getElem_take,
      List.getD_eq_getElem _ _ h2]
  · rw [List.getD_eq_default _ _ (by simp [List.length_take]; omega),
      List.getD_eq_default _ _ (by omega)]

theorem getD_drop (l : List Nat) (m i : Nat) :
    (l.drop m).getD i 0 = l.getD (m + i) 0 := by
  by_cases h : m + i < l.length
  · rw [List.getD_eq_getElem _ _ (by simp [List.length_drop]; omega), List.getElem_drop,
      List.getD_eq_getElem _ _ h]
  · rw [List.getD_eq_default _ _ (by simp [List.length_drop]; omega),
      List.getD_eq_default _ _ (by omega)]

theorem sliceAssign_getD_mid (d : List Nat) (start : Nat) (b : List Nat)
    (h : start + b.length ≤ d.length) (k : Nat) (hk : k < b.length) :
    (sliceAssign d start b).getD (start + k) 0 = b.getD k 0 := by
  have hstart : (d.take start).length = start := by
    rw [List.length_take]
    omega
  simp only [sliceAssign]
  rw [List.append_assoc]
  rw [List.getD_append_right _ _ _ _ (by omega : (d.take start).length ≤ start + k)]
  rw [hstart]
  have hidx : start + k - start = k := by omega
  rw [hidx]
  rw [List.getD_append _ _ _ _ hk]

theorem sliceAssign_getD_left (d : List Nat) (start : Nat) (b : List Nat)
    (hstart : start ≤ d.length) (j : Nat) (hj : j < start) :
    (sliceAssign d start b).getD j 0 = d.getD j 0 := by
  have hstart2 : (d.take start).length = start := by
    rw [List.length_take]
    omega
  simp only [sliceAssign]
  rw [List.append_assoc]
  rw [List.getD_append _ _ _ _ (by omega : j < (d.take start).length)]
  exact getD_take d start j hj

theorem sliceAssign_getD_right (d : List Nat) (start : Nat) (b : List Nat)
    (h : start + b.length ≤ d.length) (j : Nat) (hj : start + b.length ≤ j) :
    (sliceAssign d start b).getD j 0 = d.getD j 0 := by
  have hstart : (d.take start).length = start := by
    rw [List.length_take]
    omega
  simp only [sliceAssign]
  rw [List.append_assoc]
  rw [List.getD_append_right _ _ _ _ (by omega : (d.take start).length ≤ j)]
  rw [hstart]
  rw [List.getD_append_right _ _ _ _ (by omega : b.length ≤ j - start)]
  rw [getD_drop]
  congr 1
  omega

theorem readBytesD_getD (disk : Nat → Nat) (off n k : Nat) (hk : k < n) :
    (readBytesD disk off n).getD k 0 = disk (off + k) % 256 := by
  unfold readBytesD
  rw [List.getD_eq_getElem _ _ (by simp; omega), List.getElem_map, List.getElem_range]

/-- At depth 0 the entries loop cannot fail. -/
theorem read_extent_entries_depth0_ok
    (recur : List Nat → List Nat → Except Ext4Error (List Nat)) (v : Ext4Vol)
    (eb : List Nat) :
    ∀ remaining eex data, ∃ out,
      read_extent_entries recur v data eb 0 remaining eex = Except.ok out := by
  intro remaining
  induction remaining with
  | zero => intro eex data; exact ⟨data, rfl⟩
  | succ r ih =>
    intro eex data
    simp only [read_extent_entries, if_pos rfl]
    exact ih (eex + 1) _

/-- C3: the extent walk at a node parses the 12-byte header, aborts with
`BadExtentMagic` iff the magic differs from 0xF30A (this is the only way
a depth-0 node can fail), and otherwise iterates `eh_entries` records of
12 bytes at offsets `12 + eex*12`; a depth-0 record writes
`ee_len * block_size` bytes read from `ee_start_lo * block_size` into the
output buffer at byte offset `ee_block * block_size`, and a depth > 0
record reads one full block at `ei_leaf_lo * block_size` and re-enters
the walk on it. -/
theorem read_extent_node_spec (fuel : Nat) (v : Ext4Vol) (data nb : List Nat)
    (hdr : Ext4ExtentHeader) (hhdr : hdr = make_extent_header (slice nb 0 12)) :
    (hdr.eh_magic ≠ 0xf30a →
      read_extent (fuel + 1) v data nb = Except.error Ext4Error.badExtentMagic) ∧
    (hdr.eh_magic = 0xf30a →
      read_extent (fuel + 1) v data nb
        = read_extent_entries (fun d b => read_extent fuel v d b) v data nb
            hdr.eh_depth hdr.eh_entries 0) ∧
    (hdr.eh_depth = 0 →
      (read_extent (fuel + 1) v data nb = Except.error Ext4Error.badExtentMagic ↔
        hdr.eh_magic ≠ 0xf30a)) ∧
    (∀ r eex d0 entry,
      entry = make_extent_entry (slice nb (12 + eex * 12) (12 + eex * 12 + 12)) →
      read_extent_entries (fun d b => read_extent fuel v d b) v d0 nb 0 (r + 1) eex
        = read_extent_entries (fun d b => read_extent fuel v d b) v
            (sliceAssign d0 (entry.ee_block * v.block_size)
              (readBytesD v.disk (entry.ee_start_lo * v.block_size)
                (entry.ee_len * v.block_size)))
            nb 0 r (eex + 1)) ∧
    (∀ r eex d0 depth index, depth ≠ 0 →
      index = make_extent_index (slice nb (12 + eex * 12) (12 + eex * 12 + 12)) →
      read_extent_entries (fun d b => read_extent fuel v d b) v d0 nb depth (r + 1) eex
        = (match read_extent fuel v d0
              (readBytesD v.disk (index.ei_leaf_lo * v.block_size) v.block_size) with
           | Except.ok d2 => read_extent_entries (fun d b => read_extent fuel v d b) v d2 nb
               depth r (eex + 1)
           | Except.error e => Except.error e)) ∧
    (hdr.eh_magic = 0xf30a → hdr.eh_depth = 0 → hdr.eh_entries = 1 →
      ∀ entry, entry = make_extent_entry (slice nb 12 24) →
      entry.ee_block * v.block_size + entry.ee_len * v.block_size ≤ data.length →
      read_extent (fuel + 1) v data nb
        = Except.ok (sliceAssign data (entry.ee_block * v.block_size)
            (readBytesD v.disk (entry.ee_start_lo * v.block_size)
              (entry.ee_len * v.block_size))) ∧
      (∀ out, out = sliceAssign data (entry.ee_block * v.block_size)
          (readBytesD v.disk (entry.ee_start_lo * v.block_size)
            (entry.ee_len * v.block_size)) →
        out.length = data.length ∧
        (∀ k, k < entry.ee_len * v.block_size →
          out.getD (entry.ee_block * v.block_size + k) 0
            = v.disk (entry.ee_start_lo * v.block_size + k) % 256) ∧
        (∀ j, j < entry.ee_block * v.block_size → out.getD j 0 = data.getD j 0) ∧
        (∀ j, entry.ee_block * v.block_size + entry.ee_len * v.block_size ≤ j →
          out.getD j 0 = data.getD j 0))) := by
  have h1 : hdr.eh_magic ≠ 0xf30a →
      read_extent (fuel + 1) v data nb = Except.error Ext4Error.badExtentMagic := by
    intro hm
    simp only [read_extent]
    rw [← hhdr, if_neg hm]
  have h2 : hdr.eh_magic = 0xf30a →
      read_extent (fuel + 1) v data nb
        = read_extent_entries (fun d b => read_extent fuel v d b) v data nb
            hdr.eh_depth hdr.eh_entries 0 := by
    intro hm
    simp only [read_extent]
    rw [← hhdr, if_pos hm]
  refine ⟨h1, h2, ?_, ?_, ?_, ?_⟩
  · intro hd0
    constructor
    · intro herr
      by_contra hm
      obtain ⟨out, hout⟩ := read_extent_entries_depth0_ok
        (fun d b => read_extent fuel v d b) v nb hdr.eh_entries 0 data
      have hstep := h2 hm
      rw [hd0] at hstep
      rw [hstep, hout] at herr
      cases herr
    · exact h1
  · intro r eex d0 entry hentry
    subst hentry
    rfl
  · intro r eex d0 depth index hdep hindex
    subst hindex
    simp only [read_extent_entries]
    rw [if_neg hdep]
  · intro hm hd0 hent entry hentry hbound
    have hblen : (readBytesD v.disk (entry.ee_start_lo * v.block_size)
        (entry.ee_len * v.block_size)).length = entry.ee_len * v.block_size :=
      readBytesD_length _ _ _
    constructor
    · have hstep := h2 hm
      rw [hd0, hent] at hstep
      rw [hstep]
      subst hentry
      rfl
    · intro out hout
      subst hout
      refine ⟨?_, ?_, ?_, ?_⟩
      · rw [sliceAssign_length_eq _ _ _ (by rw [hblen]; exact hbound)]
      · intro k hk
        rw [sliceAssign_getD_mid _ _ _ (by rw [hblen]; exact hbound) k (by rw [hblen]; exact hk)]
        exact readBytesD_getD _ _ _ _ hk
      · intro j hj
        exact sliceAssign_getD_left _ _ _
          (le_trans (Nat.le_add_right _ _) hbound) j hj
      · intro j hj
        exact sliceAssign_getD_right _ _ _ (by rw [hblen]; exact hbound) j
          (by rw [hblen]; exact hj)

/-- C3 witness: a node whose 12 header bytes are all zero has magic 0 and
the walk fails with `BadExtentMagic`. -/
theorem read_extent_node_spec_witness :
    read_extent 1 wVol [9, 9, 9] (List.replicate 12 0)
      = Except.error Ext4Error.badExtentMagic :=
  (read_extent_node_spec 0 wVol [9, 9, 9] (List.replicate 12 0) _ rfl).1 (by decide)

/-- The `rec_len` field of the record decoded at `off` (bytes `off+4`,
`off+5`); both the v1 and the v2 record format keep it there. -/
def recLenAt (raw : List Nat) (off : Nat) : Nat :=
  (make_dir_entry (slice raw off (off + 8))).rec_len

theorem recLenAt_v1 (raw : List Nat) (off : Nat) :
    (make_dir_entry (slice raw off (off + 8))).rec_len = recLenAt raw off := rfl

theorem recLenAt_v2 (raw : List Nat) (off : Nat) :
    (make_dir_entry_v2 (slice raw off (off + 8))).rec_len = recLenAt raw off := rfl

/-- The offsets the directory scan visits: 0, and from each visited
offset inside the buffer, that offset plus the decoded `rec_len`. -/
inductive Reached (raw : List Nat) : Nat → Prop where
  | zero : Reached raw 0
  | step {off : Nat} : Reached raw off → off < raw.length →
      Reached raw (off + recLenAt raw off)

/-- What `read_dir` guarantees about each enumerated entry: with the
directory-type feature bit (0x2) set, the entry is decoded from a v2
record and its type is the record's embedded file-type tag; otherwise the
type is the target inode's mode high nibble classified through the fixed
table (FIFO 0x1000 → 5, char device 0x2000 → 3, directory 0x4000 → 2,
block device 0x6000 → 4, regular 0x8000 → 1, symlink 0xA000 → 7,
socket 0xC000 → 6, anything else → 0). -/
def dirEntryProp (v : Ext4Vol) (raw : List Nat) (e : DirEntry) : Prop :=
  if v.superblock.s_feature_incompat &&& 0x2 ≠ 0 then
    ∃ off, off < raw.length ∧
      e.inode = (make_dir_entry_v2 (slice raw off (off + 8))).inode ∧
      e.name = slice raw (off + 8)
        (off + 8 + (make_dir_entry_v2 (slice raw off (off + 8))).name_len) ∧
      e.entry_type = (make_dir_entry_v2 (slice raw off (off + 8))).file_type
  else
    e.entry_type =
      (if (read_inode v e.inode).i_mode &&& 0xf000 = 0x1000 then 5
       else if (read_inode v e.inode).i_mode &&& 0xf000 = 0x2000 then 3
       else if (read_inode v e.inode).i_mode &&& 0xf000 = 0x4000 then 2
       else if (read_inode v e.inode).i_mode &&& 0xf000 = 0x6000 then 4
       else if (read_inode v e.inode).i_mode &&& 0xf000 = 0x8000 then 1
       else if (read_inode v e.inode).i_mode &&& 0xf000 = 0xA000 then 7
       else if (read_inode v e.inode).i_mode &&& 0xf000 = 0xC000 then 6
       else 0)

/-- Every entry produced by the directory scan satisfies `dirEntryProp`. -/
theorem read_dir_loop_mem (v : Ext4Vol) (raw : List Nat) :
    ∀ fuel off l, read_dir_loop fuel v raw off = Except.ok l →
      ∀ e ∈ l, dirEntryProp v raw e := by
  intro fuel
  induction fuel with
  | zero =>
    intro off l h e he
    simp only [read_dir_loop] at h
    split at h
    · cases h
    · cases h
      simp at he
  | succ f ih =>
    intro off l h e he
    simp only [read_dir_loop] at h
    split at h
    · next hlt =>
      split at h
      · next hf =>
        split at h
        · next rest hrec =>
          cases h
          rcases List.mem_cons.mp he with rfl | he'
          · unfold dirEntryProp
            rw [if_pos hf]
            exact ⟨off, hlt, rfl, rfl, rfl⟩
          · exact ih _ _ hrec e he'
        · next e2 hrec => cases h
      · next hf =>
        split at h
        · next rest hrec =>
          cases h
          rcases List.mem_cons.mp he with rfl | he'
          · unfold dirEntryProp
            rw [if_neg hf]
          · exact ih _ _ hrec e he'
        · next e2 hrec => cases h
    · cases h
      simp at he

/-- Once the cursor is at or past the end, the scan just stops. -/
theorem read_dir_loop_past_end (v : Ext4Vol) (raw : List Nat) (fuel off : Nat)
    (h : raw.length ≤ off) : read_dir_loop fuel v raw off = Except.ok [] := by
  cases fuel <;> simp [read_dir_loop, Nat.not_lt.mpr h]

/-- A record of `rec_len` 0 inside the buffer keeps the cursor in place
forever: no amount of fuel finishes the scan from there. -/
theorem read_dir_loop_stuck (v : Ext4Vol) (raw : List Nat) (off : Nat)
    (hlt : off < raw.length) (hzero : recLenAt raw off = 0) :
    ∀ fuel, read_dir_loop fuel v raw off = Except.error Ext4Error.outOfFuel := by
  intro fuel
  induction fuel with
  | zero => simp [read_dir_loop, hlt]
  | succ f ih =>
    simp only [read_dir_loop, if_pos hlt]
    split
    · rw [recLenAt_v2, hzero, Nat.add_zero, ih]
    · rw [recLenAt_v1, hzero, Nat.add_zero, ih]

/-- Non-termination at a reached offset propagates back to the start of
the scan. -/
theorem read_dir_loop_stuck_from_zero (v : Ext4Vol) (raw : List Nat) :
    ∀ off, Reached raw off →
      (∀ fuel, read_dir_loop fuel v raw off = Except.error Ext4Error.outOfFuel) →
      ∀ fuel, read_dir_loop fuel v raw 0 = Except.error Ext4Error.outOfFuel := by
  intro off hr
  induction hr with
  | zero => exact fun h => h
  | step hr' hlt ih =>
    intro hstep
    apply ih
    intro fuel
    cases fuel with
    | zero => simp [read_dir_loop, hlt]
    | succ f =>
      simp only [read_dir_loop, if_pos hlt]
      split
      · rw [recLenAt_v2, hstep f]
      · rw [recLenAt_v1, hstep f]

/-- C9: the directory scan starts at offset 0 on the materialized data,
advances by each decoded record's `rec_len`, and stops when the cursor
reaches the buffer length; if every reached record has `rec_len ≥ 1` the
scan finishes within `raw.length` steps, and if any reached record has
`rec_len = 0` the scan never terminates (runs out of any amount of
fuel). -/
theorem read_dir_scan_spec (v : Ext4Vol) (raw : List Nat) :
    (∀ fuel n dr, read_data fuel v (read_inode v n) = Except.ok dr →
      read_dir fuel v n = read_dir_loop fuel v dr 0) ∧
    (∀ fuel off, raw.length ≤ off → read_dir_loop fuel v raw off = Except.ok []) ∧
    (∀ fuel off, off < raw.length → ∃ e : DirEntry,
      read_dir_loop (fuel + 1) v raw off
        = Except.map (fun rest => e :: rest)
            (read_dir_loop fuel v raw (off + recLenAt raw off))) ∧
    ((∀ off, Reached raw off → off < raw.length → 1 ≤ recLenAt raw off) →
      ∃ l, read_dir_loop raw.length v raw 0 = Except.ok l) ∧
    (∀ off, Reached raw off → off < raw.length → recLenAt raw off = 0 →
      ∀ fuel, read_dir_loop fuel v raw 0 = Except.error Ext4Error.outOfFuel) := by
  refine ⟨?_, ?_, ?_, ?_, ?_⟩
  · intro fuel n dr h
    simp only [read_dir]
    rw [h]
  · intro fuel off h
    exact read_dir_loop_past_end v raw fuel off h
  · intro fuel off hlt
    simp only [read_dir_loop, if_pos hlt]
    by_cases hf : v.superblock.s_feature_incompat &&& 0x2 ≠ 0
    · rw [if_pos hf, recLenAt_v2]
      rcases hres : read_dir_loop fuel v raw (off + recLenAt raw off) with e2 | rest
      · exact ⟨⟨0, [], 0⟩, rfl⟩
      · exact ⟨_, rfl⟩
    · rw [if_neg hf, recLenAt_v1]
      rcases hres : read_dir_loop fuel v raw (off + recLenAt raw off) with e2 | rest
      · exact ⟨⟨0, [], 0⟩, rfl⟩
      · exact ⟨_, rfl⟩
  · intro hall
    suffices h : ∀ fuel off, Reached raw off → raw.length - off ≤ fuel →
        ∃ l, read_dir_loop fuel v raw off = Except.ok l by
      exact h raw.length 0 Reached.zero (by omega)
    intro fuel
    induction fuel with
    | zero =>
      intro off hr hle
      rw [read_dir_loop_past_end v raw 0 off (by omega)]
      exact ⟨[], rfl⟩
    | succ f ih =>
      intro off hr hle
      by_cases hlt : off < raw.length
      · have hrl := hall off hr hlt
        obtain ⟨l, hl⟩ := ih (off + recLenAt raw off) (Reached.step hr hlt) (by omega)
        simp only [read_dir_loop, if_pos hlt]
        by_cases hf : v.superblock.s_feature_incompat &&& 0x2 ≠ 0
        · rw [if_pos hf, recLenAt_v2, hl]
          exact ⟨_, rfl⟩
        · rw [if_neg hf, recLenAt_v1, hl]
          exact ⟨_, rfl⟩
      · rw [read_dir_loop_past_end v raw (f + 1) off (by omega)]
        exact ⟨[], rfl⟩
  · intro off hr hlt hz fuel
    exact read_dir_loop_stuck_from_zero v raw off hr
      (read_dir_loop_stuck v raw off hlt hz) fuel

/-- The directory data of inode 2 on the concrete volume `wVol`. -/
def wRaw : List Nat := (read_inode wVol 2).i_block

/-- C9 witness: on `wVol`'s root directory data (one record of
`rec_len = 60` in a 60-byte buffer) every reached record has
`rec_len ≥ 1`, so the scan with `length` fuel succeeds. -/
theorem read_dir_scan_spec_witness :
    ∃ l, read_dir_loop wRaw.length wVol wRaw 0 = Except.ok l := by
  refine (read_dir_scan_spec wVol wRaw).2.2.2.1 ?_
  intro off hr hlt
  have hcases : off = 0 ∨ off = 60 := by
    clear hlt
    induction hr with
    | zero => exact Or.inl rfl
    | step hr' hlt' ih =>
      rcases ih with rfl | rfl
      · right
        decide
      · exact absurd hlt' (by decide)
  rcases hcases with rfl | rfl
  · decide
  · exact absurd hlt (by decide)

/-- C6: every entry enumerated by `read_dir` gets its type from the v2
record's embedded file-type tag when the directory-type feature bit (0x2)
is set, and otherwise from the target inode's mode high nibble classified
through the fixed table (see `dirEntryProp`). -/
theorem read_dir_type_resolution (fuel : Nat) (v : Ext4Vol) (n : Nat) (l : List DirEntry)
    (h : read_dir fuel v n = Except.ok l) :
    ∃ raw, read_data fuel v (read_inode v n) = Except.ok raw ∧
      ∀ e ∈ l, dirEntryProp v raw e := by
  simp only [read_dir] at h
  split at h
  · next raw hraw => exact ⟨raw, hraw, read_dir_loop_mem v raw fuel 0 l h⟩
  · next e2 hraw => cases h

/-- The single entry of `wVol`'s root directory. -/
def wEntry : DirEntry := ⟨3, [120], 0⟩

/-- C6 witness: the root listing of the v1-format volume `wVol` contains
`wEntry`, and it satisfies the type-resolution contract. -/
theorem read_dir_type_resolution_witness : dirEntryProp wVol wRaw wEntry := by
  obtain ⟨raw, hraw, hall⟩ := read_dir_type_resolution 1 wVol 2 [wEntry] rfl
  have hr2 : read_data 1 wVol (read_inode wVol 2) = Except.ok wRaw := rfl
  rw [hr2] at hraw
  cases hraw
  exact hall wEntry (by simp)

/-- C10: in the legacy v1 directory format, an entry whose target inode's
mode high nibble matches none of the seven recognized type codes comes
back with type 0 (Unknown), and `read_dir` raises no error for it. -/
theorem read_dir_v1_unknown_type (fuel : Nat) (v : Ext4Vol) (n : Nat) (l : List DirEntry)
    (h : read_dir fuel v n = Except.ok l)
    (hv1 : v.superblock.s_feature_incompat &&& 0x2 = 0)
    (e : DirEntry) (he : e ∈ l) (t : Nat)
    (ht : t = (read_inode v e.inode).i_mode &&& 0xf000)
    (h1 : t ≠ 0x1000) (h2 : t ≠ 0x2000) (h3 : t ≠ 0x4000) (h4 : t ≠ 0x6000)
    (h5 : t ≠ 0x8000) (h6 : t ≠ 0xA000) (h7 : t ≠ 0xC000) :
    e.entry_type = 0 := by
  simp only [read_dir] at h
  split at h
  · next raw hraw =>
    have hp := read_dir_loop_mem v raw fuel 0 l h e he
    unfold dirEntryProp at hp
    rw [if_neg (by simp [hv1])] at hp
    rw [hp, ← ht]
    simp [h1, h2, h3, h4, h5, h6, h7]
  · next e2 hraw => cases h

/-- C10 witness: `wVol` is a v1 volume; its root entry points at inode 3
whose mode high nibble is 0x3 (recognized by no type code), and the entry
comes back with type 0. -/
theorem read_dir_v1_unknown_type_witness : wEntry.entry_type = 0 :=
  read_dir_v1_unknown_type 1 wVol 2 [wEntry] rfl (by decide) wEntry (by simp) 0x3000
    (by decide) (by decide) (by decide) (by decide) (by decide) (by decide)
    (by decide) (by decide)

theorem readLE_succ (d : List Nat) (off n : Nat) :
    readLE d off (n + 1) = readLE d off n + d.getD (off + n) 0 * 256 ^ n := by
  simp [readLE, List.range_succ]

theorem readLE_zero_of (d : List Nat) (off n : Nat)
    (h : ∀ i, i < n → d.getD (off + i) 0 = 0) : readLE d off n = 0 := by
  induction n with
  | zero => rfl
  | succ m ih =>
    rw [readLE_succ, ih (fun i hi => h i (by omega)), h m (by omega)]
    simp

theorem dictInsert_mem {α β : Type} [DecidableEq α] (m : List (α × β)) (k : α) (v : β) :
    (k, v) ∈ dictInsert m k v := by
  unfold dictInsert
  split
  · next hany =>
    obtain ⟨p, hp, hpk⟩ := List.any_eq_true.mp hany
    refine List.mem_map.mpr ⟨p, hp, ?_⟩
    rw [if_pos (of_decide_eq_true hpk)]
  · exact List.mem_append_right _ (by simp)

/-- C7: `read_xattr` yields an empty mapping (not an error) for a zero
ACL pointer; for a nonzero one it fails with `BadXattrMagic` iff the
32-byte header at `i_file_acl_lo * block_size` has a magic other than
0xEA020000; the entry scan stops at an all-zero sentinel entry before the
buffer's end; and an entry with `e_value_size = 0` is recorded as its key
bound to an absent value (`none`), not an empty byte string. -/
theorem read_xattr_spec (v : Ext4Vol) (inode : Ext4Inode) :
    (inode.i_file_acl_lo = 0 → read_xattr v inode = Except.ok []) ∧
    (inode.i_file_acl_lo ≠ 0 →
      (read_xattr v inode = Except.error Ext4Error.badXattrMagic ↔
        (make_xattr_header
          (readBytesD v.disk (inode.i_file_acl_lo * v.block_size) 32)).h_magic
          ≠ 0xea020000)) ∧
    (∀ data off acc, off < data.length →
      (∀ i, i < 16 → (slice data off (off + 16)).getD i 0 = 0) →
      read_xattr_loop data off acc = acc) ∧
    (∀ data off acc, off < data.length →
      ∀ entry, entry = make_xattr_entry (slice data off (off + 16)) →
      ¬(entry.e_name_len = 0 ∧ entry.e_name_index = 0 ∧ entry.e_value_offs = 0
          ∧ entry.e_value_inum = 0) →
      entry.e_value_size = 0 →
      read_xattr_loop data off acc
        = read_xattr_loop data (off + 16 + entry.e_name_len)
            (dictInsert acc
              (xattr_prefixes.getD entry.e_name_index []
                ++ slice data (off + 16) (off + 16 + entry.e_name_len)) none) ∧
      (xattr_prefixes.getD entry.e_name_index []
          ++ slice data (off + 16) (off + 16 + entry.e_name_len), none) ∈
        dictInsert acc
          (xattr_prefixes.getD entry.e_name_index []
            ++ slice data (off + 16) (off + 16 + entry.e_name_len)) none) := by
  refine ⟨fun h => by simp [read_xattr, h], ?_, ?_, ?_⟩
  · intro hacl
    constructor
    · intro herr
      by_contra hm
      simp only [read_xattr] at herr
      rw [if_neg hacl, if_neg (not_not_intro hm)] at herr
      cases herr
    · intro hm
      simp only [read_xattr]
      rw [if_neg hacl, if_pos hm]
  · intro data off acc hlt hz
    have hnl : (make_xattr_entry (slice data off (off + 16))).e_name_len = 0 :=
      readLE_zero_of _ _ _ (fun i hi => hz (0 + i) (by omega))
    have hni : (make_xattr_entry (slice data off (off + 16))).e_name_index = 0 :=
      readLE_zero_of _ _ _ (fun i hi => hz (1 + i) (by omega))
    have hvo : (make_xattr_entry (slice data off (off + 16))).e_value_offs = 0 :=
      readLE_zero_of _ _ _ (fun i hi => hz (2 + i) (by omega))
    have hvi : (make_xattr_entry (slice data off (off + 16))).e_value_inum = 0 :=
      readLE_zero_of _ _ _ (fun i hi => hz (4 + i) (by omega))
    rw [read_xattr_loop]
    rw [dif_pos hlt, if_pos ⟨hnl, hni, hvo, hvi⟩]
  · intro data off acc hlt entry hentry hnots hvs
    subst hentry
    refine ⟨?_, ?_⟩
    · conv_lhs => rw [read_xattr_loop]
      rw [dif_pos hlt, if_neg hnots, hvs]
      simp only [slice, Nat.add_zero, Nat.sub_self, List.take_zero, if_true]
    · exact dictInsert_mem acc _ none

/-- C7 witness: inode 3 of the concrete volume `wVol` has a zero ACL
pointer, so its extended attributes decode to the empty mapping. -/
theorem read_xattr_spec_witness :
    read_xattr wVol (read_inode wVol 3) = Except.ok [] :=
  (read_xattr_spec wVol (read_inode wVol 3)).1 (by decide)

/-- Decidable similarity of two extent-tree nodes on two volumes: equal
block sizes, equal 12-byte headers, and record-wise agreement on every
field the walker uses — `ee_block`, `ee_len`, `ee_start_lo` and the data
bytes they address at depth 0, `ei_block`, `ei_leaf_lo` and (recursively)
the child nodes at depth > 0.  The `ee_start_hi` and `ei_leaf_hi` fields
are deliberately left unconstrained: two volumes that differ only there
are similar. -/
def extentSimB (fuel : Nat) (v1 v2 : Ext4Vol) (n1 n2 : List Nat) : Bool :=
  match fuel with
  | 0 => true
  | fuel' + 1 =>
    let h1 := make_extent_header (slice n1 0 12)
    let h2 := make_extent_header (slice n2 0 12)
    decide (v1.block_size = v2.block_size) && decide (h1 = h2) &&
    (List.range h1.eh_entries).all (fun j =>
      let r1 := slice n1 (12 + j * 12) (12 + j * 12 + 12)
      let r2 := slice n2 (12 + j * 12) (12 + j * 12 + 12)
      if h1.eh_depth = 0 then
        let e1 := make_extent_entry r1
        let e2 := make_extent_entry r2
        decide (e1.ee_block = e2.ee_block) && decide (e1.ee_len = e2.ee_len) &&
        decide (e1.ee_start_lo = e2.ee_start_lo) &&
        decide (readBytesD v1.disk (e1.ee_start_lo * v1.block_size)
            (e1.ee_len * v1.block_size)
          = readBytesD v2.disk (e2.ee_start_lo * v2.block_size)
            (e2.ee_len * v2.block_size))
      else
        let i1 := make_extent_index r1
        let i2 := make_extent_index r2
        decide (i1.ei_block = i2.ei_block) && decide (i1.ei_leaf_lo = i2.ei_leaf_lo) &&
        extentSimB fuel' v1 v2
          (readBytesD v1.disk (i1.ei_leaf_lo * v1.block_size) v1.block_size)
          (readBytesD v2.disk (i2.ei_leaf_lo * v2.block_size) v2.block_size))

/-- What the entries loop needs of record `j` to behave identically on
the two volumes. -/
def extentEntrySim (v1 v2 : Ext4Vol) (n1 n2 : List Nat) (depth : Nat)
    (recur1 recur2 : List Nat → List Nat → Except Ext4Error (List Nat)) (j : Nat) :
    Prop :=
  if depth = 0 then
    (make_extent_entry (slice n1 (12 + j * 12) (12 + j * 12 + 12))).ee_block
      = (make_extent_entry (slice n2 (12 + j * 12) (12 + j * 12 + 12))).ee_block ∧
    (make_extent_entry (slice n1 (12 + j * 12) (12 + j * 12 + 12))).ee_len
      = (make_extent_entry (slice n2 (12 + j * 12) (12 + j * 12 + 12))).ee_len ∧
    readBytesD v1.disk
        ((make_extent_entry (slice n1 (12 + j * 12) (12 + j * 12 + 12))).ee_start_lo
          * v1.block_size)
        ((make_extent_entry (slice n1 (12 + j * 12) (12 + j * 12 + 12))).ee_len
          * v1.block_size)
      = readBytesD v2.disk
        ((make_extent_entry (slice n2 (12 + j * 12) (12 + j * 12 + 12))).ee_start_lo
          * v2.block_size)
        ((make_extent_entry (slice n2 (12 + j * 12) (12 + j * 12 + 12))).ee_len
          * v2.block_size)
  else
    ∀ data, recur1 data (readBytesD v1.disk
        ((make_extent_index (slice n1 (12 + j * 12) (12 + j * 12 + 12))).ei_leaf_lo
          * v1.block_size) v1.block_size)
      = recur2 data (readBytesD v2.disk
        ((make_extent_index (slice n2 (12 + j * 12) (12 + j * 12 + 12))).ei_leaf_lo
          * v2.block_size) v2.block_size)

theorem read_extent_entries_sim {v1 v2 : Ext4Vol} (hbs : v1.block_size = v2.block_size)
    {n1 n2 : List Nat} {depth : Nat}
    {recur1 recur2 : List Nat → List Nat → Except Ext4Error (List Nat)} :
    ∀ remaining eex,
      (∀ j, eex ≤ j → j < eex + remaining →
        extentEntrySim v1 v2 n1 n2 depth recur1 recur2 j) →
      ∀ data, read_extent_entries recur1 v1 data n1 depth remaining eex
        = read_extent_entries recur2 v2 data n2 depth remaining eex := by
  intro remaining
  induction remaining with
  | zero => intro eex h data; rfl
  | succ r ih =>
    intro eex h data
    have hj := h eex (le_refl _) (by omega)
    by_cases hd : depth = 0
    · subst hd
      unfold extentEntrySim at hj
      rw [if_pos rfl] at hj
      obtain ⟨hblk, hlen, hbytes⟩ := hj
      simp only [read_extent_entries, if_pos rfl]
      rw [hbytes, hblk, hbs]
      exact ih (eex + 1) (fun j h1 h2 => h j (by omega) (by omega)) _
    · unfold extentEntrySim at hj
      rw [if_neg hd] at hj
      simp only [read_extent_entries]
      rw [if_neg hd, if_neg hd]
      rw [hj data]
      cases hc : recur2 data (readBytesD v2.disk
          ((make_extent_index (slice n2 (12 + eex * 12) (12 + eex * 12 + 12))).ei_leaf_lo
            * v2.block_size) v2.block_size) with
      | ok d2 => exact ih (eex + 1) (fun j h1 h2 => h j (by omega) (by omega)) d2
      | error e => rfl

/-- C8: the extent walk only honours the low 32 bits of physical block
pointers — on two volumes whose extent trees agree except possibly in the
`ee_start_hi` / `ei_leaf_hi` fields (`extentSimB`), the walk produces
identical bytes, and so does `read_file` on an extent-mapped inode whose
non-`i_block` fields agree. -/
theorem extent_walk_lo_only (fuel : Nat) (v1 v2 : Ext4Vol) :
    (∀ n1 n2 data, extentSimB fuel v1 v2 n1 n2 = true →
      read_extent fuel v1 data n1 = read_extent fuel v2 data n2) ∧
    (∀ n : Nat,
      v1.block_size = v2.block_size →
      (read_inode v1 n).i_size_lo = (read_inode v2 n).i_size_lo →
      (read_inode v1 n).i_flags = (read_inode v2 n).i_flags →
      (read_inode v1 n).i_mode = (read_inode v2 n).i_mode →
      (read_inode v1 n).i_atime = (read_inode v2 n).i_atime →
      (read_inode v1 n).i_mtime = (read_inode v2 n).i_mtime →
      (read_inode v1 n).i_flags &&& 0x10000000 = 0 →
      ¬((read_inode v1 n).i_mode &&& 0xf000 = 0xa000
          ∧ (read_inode v1 n).i_size_lo ≤ 60) →
      (read_inode v1 n).i_flags &&& 0x80000 ≠ 0 →
      extentSimB fuel v1 v2 (read_inode v1 n).i_block (read_inode v2 n).i_block = true →
      read_file fuel v1 n = read_file fuel v2 n) := by
  have hwalk : ∀ fu n1 n2 data, extentSimB fu v1 v2 n1 n2 = true →
      read_extent fu v1 data n1 = read_extent fu v2 data n2 := by
    intro fu
    induction fu with
    | zero => intro n1 n2 data _; rfl
    | succ f ih =>
      intro n1 n2 data hsim
      simp only [extentSimB, Bool.and_eq_true, decide_eq_true_eq, List.all_eq_true,
        List.mem_range] at hsim
      obtain ⟨⟨hbs, hhdr⟩, hall⟩ := hsim
      simp only [read_extent]
      rw [← hhdr]
      by_cases hm : (make_extent_header (slice n1 0 12)).eh_magic = 0xf30a
      · rw [if_pos hm, if_pos hm]
        apply read_extent_entries_sim hbs
        intro j hj0 hj1
        have hj := hall j (by omega)
        unfold extentEntrySim
        by_cases hd : (make_extent_header (slice n1 0 12)).eh_depth = 0
        · rw [if_pos hd]
          rw [if_pos hd] at hj
          simp only [Bool.and_eq_true, decide_eq_true_eq] at hj
          exact ⟨hj.1.1.1, hj.1.1.2, hj.2⟩
        · rw [if_neg hd]
          rw [if_neg hd] at hj
          simp only [Bool.and_eq_true, decide_eq_true_eq] at hj
          intro data2
          exact ih _ _ data2 hj.2
      · rw [if_neg hm, if_neg hm]
  refine ⟨hwalk fuel, ?_⟩
  intro n hbs hsz hfl hmd hat hmt hni hns hext hsim
  simp only [read_file]
  by_cases h0 : (read_inode v1 n).i_size_lo = 0
  · have h0' : (read_inode v2 n).i_size_lo = 0 := by rw [← hsz]; exact h0
    simp only [read_data]
    rw [if_pos h0, if_pos h0']
    simp only [Except.map]
    rw [hsz, hat, hmt]
  · have h0' : ¬(read_inode v2 n).i_size_lo = 0 := by rw [← hsz]; exact h0
    have hb1 : ¬((read_inode v1 n).i_flags &&& 0x10000000 ≠ 0
        ∨ ((read_inode v1 n).i_mode &&& 0xf000 = 0xa000
          ∧ (read_inode v1 n).i_size_lo ≤ 60)) := by
      rintro (hx | hx)
      · exact hx hni
      · exact hns hx
    have hb2 : ¬((read_inode v2 n).i_flags &&& 0x10000000 ≠ 0
        ∨ ((read_inode v2 n).i_mode &&& 0xf000 = 0xa000
          ∧ (read_inode v2 n).i_size_lo ≤ 60)) := by
      rw [← hfl, ← hmd, ← hsz]
      exact hb1
    have hext2 : (read_inode v2 n).i_flags &&& 0x80000 ≠ 0 := by
      rw [← hfl]
      exact hext
    simp only [read_data]
    rw [if_neg h0, if_neg h0', if_neg hb1, if_neg hb2, if_pos hext, if_pos hext2]
    rw [← hsz, ← hat, ← hmt]
    rw [hwalk fuel _ _ _ hsim]

/-- A handcrafted volume with block size 1 for walker witnesses. -/
def xVol : Ext4Vol := ⟨fun i => i % 256, wSb, 1⟩

/-- A one-entry depth-0 extent node: magic 0xF30A, 1 entry, depth 0;
entry `ee_block = 0`, `ee_len = 1`, `ee_start_hi = 0`, `ee_start_lo = 2`. -/
def c8Node1 : List Nat :=
  [0x0a, 0xf3, 1, 0, 0, 0, 0, 0, 0, 0, 0, 0, 0, 0, 0, 0, 1, 0, 0, 0, 2, 0, 0, 0]

/-- The same node with `ee_start_hi = 7` instead of 0. -/
def c8Node2 : List Nat :=
  [0x0a, 0xf3, 1, 0, 0, 0, 0, 0, 0, 0, 0, 0, 0, 0, 0, 0, 1, 0, 7, 0, 2, 0, 0, 0]

/-- C8 witness: `c8Node1` and `c8Node2` differ only in `ee_start_hi`, and
the walk produces identical output on them. -/
theorem extent_walk_lo_only_witness :
    read_extent 1 xVol [9, 9, 9] c8Node1 = read_extent 1 xVol [9, 9, 9] c8Node2 :=
  (extent_walk_lo_only 1 xVol xVol).1 c8Node1 c8Node2 [9, 9, 9] (by decide)

end Ext4
